import Mathlib

/-!
Verification of the collection-log randomizer core against its specification.

The Lean definitions below are shallow embeddings of the Python source files
`collection_log_randomizer.py`, `temple_api.py`, `item_lookup_service.py` and
`app.py`.  Pure computations become Lean functions; file-system and network
effects become explicit parameters (file maps, fetch outcome functions) and
explicit result fields (event lists, network-call counters).  Python `None`
becomes `Option.none`; Python dicts become insertion-ordered association
lists (or functions built by repeated update, where only lookup matters).
-/

/-- One `{category, subcategory}` source tuple, as appended to
`unique_items[name]["sources"]` in `collection_log_randomizer.py`. -/
structure Source where
  category : String
  subcategory : String
deriving DecidableEq

/-- One raw occurrence of an item in the scraped document: the dict built at
lines 110-116 of `collection_log_randomizer.py` and appended to `all_items`. -/
structure Item where
  name : String
  url : String
  icon : String
  category : String
  subcategory : String
deriving DecidableEq

/-- One deduplicated entry of `unique_items`: `item.copy()` of the first
occurrence plus the accumulated `sources` list
(`collection_log_randomizer.py` lines 125-137). -/
structure Entry where
  name : String
  url : String
  icon : String
  category : String
  subcategory : String
  sources : List Source
deriving DecidableEq

/-- The cached catalog snapshot `cache_data = {structure, items, unique_items}`
(`collection_log_randomizer.py` lines 161-165).  The structure tree is
category name to subcategory name to the occurrences placed there. -/
structure CacheData where
  structureTree : List (String × List (String × List Item))
  items : List Item
  unique_items : List Entry
deriving DecidableEq

/-! ## Selector: `get_random_collection_log_item`
(`collection_log_randomizer.py` lines 172-192)

`random.choice(seq)` raises `IndexError` on an empty sequence and otherwise
returns an element; we model the draw by an arbitrary index `k`, reduced
modulo the pool size.  A `none` result of `randomChoice` corresponds to the
`IndexError` case (only reachable on an empty list). -/

/-- Model of Python `random.choice`: `none` models the `IndexError` raised on
an empty sequence, `some` the chosen element. -/
def randomChoice {α : Type} (l : List α) (k : Nat) : Option α :=
  l.get? (k % l.length)

/-- A value returned by the selector: in weighted mode a raw occurrence dict
from `data["items"]`, in uniform mode a deduplicated entry dict from
`data["unique_items"]`. -/
inductive PickValue where
  | occurrence (it : Item)
  | entry (e : Entry)
deriving DecidableEq

/-- Outcome of one selector call.  `value v` is a normal Python return
(`v = none` models returning `None`); `indexError` models an unhandled
`IndexError` escaping from `random.choice`. -/
inductive PickOutcome where
  | value (v : Option PickValue)
  | indexError
deriving DecidableEq

/-- Shallow embedding of `get_random_collection_log_item(include_duplicates)`.
The `data` argument stands for the result of the `scrape_collection_log()`
call at line 180; `k` drives the random draw.  The emptiness tests mirror
`if data["items"]:` and `if data["unique_items"]:`; on an empty pool the
source returns `None`. -/
def get_random_collection_log_item (data : CacheData) (include_duplicates : Bool)
    (k : Nat) : PickOutcome :=
  if include_duplicates then
    match data.items with
    | [] => PickOutcome.value none
    | _ :: _ =>
      match randomChoice data.items k with
      | some it => PickOutcome.value (some (PickValue.occurrence it))
      | none => PickOutcome.indexError
  else
    match data.unique_items with
    | [] => PickOutcome.value none
    | _ :: _ =>
      match randomChoice data.unique_items k with
      | some e => PickOutcome.value (some (PickValue.entry e))
      | none => PickOutcome.indexError

/-- A catalog snapshot with both pools empty. -/
def emptyCacheData : CacheData := ⟨[], [], []⟩

/-! ## Persistent catalog cache: `scrape_collection_log`
(`collection_log_randomizer.py` lines 11-18 and 160-170)

The cache file is modelled as `Option CacheData` (present/absent with its
parsed contents).  `json.load` returns a freshly allocated object on every
call, so object identity is modelled by an allocation counter: each call
returns the current counter as the identity of the object handed to the
caller and bumps the counter.  The event list records, in order, whether the
call read the cache file, fetched the remote document, or wrote the cache
file.  Building from the live document is abstracted as `buildDoc` (network
fetch plus BeautifulSoup traversal, lines 20-158). -/

inductive ScrapeEvent where
  | cacheRead
  | fetchDoc
  | cacheWrite
deriving DecidableEq

/-- Result of one `scrape_collection_log()` call: the identity (`allocId`) and
contents (`data`) of the returned object, the cache file after the call, the
next allocation counter, and the effects performed. -/
structure ScrapeResult where
  allocId : Nat
  data : CacheData
  cacheFile : Option CacheData
  nextAlloc : Nat
  events : List ScrapeEvent
deriving DecidableEq

/-- Shallow embedding of `scrape_collection_log()`.  If the cache file exists
it is read and parsed (a fresh object); otherwise the document is fetched,
the catalog built, and the cache file written. -/
def scrape_collection_log (buildDoc : Unit → CacheData)
    (cacheFile : Option CacheData) (alloc : Nat) : ScrapeResult :=
  match cacheFile with
  | some d => ⟨alloc, d, some d, alloc + 1, [ScrapeEvent.cacheRead]⟩
  | none =>
    let built := buildDoc ()
    ⟨alloc, built, some built, alloc + 1,
      [ScrapeEvent.fetchDoc, ScrapeEvent.cacheWrite]⟩

/-- A concrete snapshot used by the C2 counterexample. -/
def demoData : CacheData := ⟨[], [], []⟩

/-- First `scrape_collection_log()` call with the cache file present. -/
def scrapeCall1 : ScrapeResult :=
  scrape_collection_log (fun _ => demoData) (some demoData) 0

/-- Second `scrape_collection_log()` call, on the state left by the first. -/
def scrapeCall2 : ScrapeResult :=
  scrape_collection_log (fun _ => demoData) scrapeCall1.cacheFile scrapeCall1.nextAlloc

/-! ## Progress client: class `TempleApi` (`temple_api.py`)

The cache directory is modelled as a list of files (path, modification time,
stored contents); times are integers (seconds).  The HTTP layer is a
parameter `fetch` from the request key (the percent-encoded player name) to
one of four outcomes mirroring the `try` block of `get_collection_log`:
a parsed JSON body without an `error` key, a parsed body with an `error`
key, a `requests` transport failure, or a `json.JSONDecodeError`. -/

/-- `CACHE_TTL = 24 * 60 * 60` (`temple_api.py` line 13). -/
def CACHE_TTL : Int := 24 * 60 * 60

/-- The filename sanitization of `_get_cache_path` (`temple_api.py` line 28):
every non-alphanumeric character becomes an underscore. -/
def clean_rsn (rsn : String) : String :=
  String.mk (rsn.data.map (fun ch => if ch.isAlphanum then ch else '_'))

/-- `_get_cache_path` (`temple_api.py` lines 25-29):
`os.path.join(self.cache_dir, f"{clean_rsn}.json")`. -/
def get_cache_path (cache_dir rsn : String) : String :=
  cache_dir ++ "/" ++ clean_rsn rsn ++ ".json"

/-- The `error` payload of a Temple response: either a nested object with a
numeric `Code` and a `Message`, or a plain string (the locally constructed
error messages are strings). -/
inductive ErrVal where
  | codeMsg (code : Int) (msg : String)
  | text (s : String)
deriving DecidableEq

/-- The parsed success body: `data["data"]["items"]` is a mapping from item id
to its `count` (`item_data.get("count", 0)`); `none` models a body where the
`data` or `items` key is missing.  The two totals are the stats injected at
lines 102-103 of `temple_api.py` (absent in the raw remote body). -/
structure TempleData where
  items : Option (List (String × Nat))
  totalAvailable : Option Nat
  totalFinished : Option Nat
deriving DecidableEq

/-- A value returned by `get_collection_log` (and stored in the per-player
cache file): either a dict with an `error` key or a success body. -/
inductive TempleResult where
  | err (e : ErrVal)
  | ok (d : TempleData)
deriving DecidableEq

/-- One file of the cache directory. -/
structure TempleCacheFile where
  path : String
  mtime : Int
  contents : TempleResult
deriving DecidableEq

abbrev TempleFiles := List TempleCacheFile

/-- `os.path.exists` plus reading: find the file at a path. -/
def filesLookup (fs : TempleFiles) (path : String) : Option TempleCacheFile :=
  match fs with
  | [] => none
  | f :: t => if f.path = path then some f else filesLookup t path

/-- `_write_cache` (`temple_api.py` lines 46-49): overwrite or create the file
at `path`, stamping the current time as its modification time. -/
def filesWrite (fs : TempleFiles) (path : String) (mtime : Int)
    (contents : TempleResult) : TempleFiles :=
  match fs with
  | [] => [⟨path, mtime, contents⟩]
  | f :: t =>
    if f.path = path then ⟨path, mtime, contents⟩ :: t
    else f :: filesWrite t path mtime contents

/-- `_is_cache_valid` (`temple_api.py` lines 31-39): the file exists and
`(current_time - modified_time) < CACHE_TTL` (strict). -/
def is_cache_valid (fs : TempleFiles) (now : Int) (path : String) : Bool :=
  match filesLookup fs path with
  | none => false
  | some f => now - f.mtime < CACHE_TTL

/-- `_read_cache` (`temple_api.py` lines 41-44).  Reading a missing file would
raise `FileNotFoundError`; every call site guards with `_is_cache_valid`, so
the error leg is unreachable there. -/
def read_cache (fs : TempleFiles) (path : String) : TempleResult :=
  match filesLookup fs path with
  | some f => f.contents
  | none => TempleResult.err (ErrVal.text "FileNotFoundError")

/-- `rsn.replace(" ", "%20")` (`temple_api.py` line 69). -/
def encode_rsn (rsn : String) : String := rsn.replace " " "%20"

/-- Outcome of the HTTP request plus JSON parse inside the `try` block of
`get_collection_log` (`temple_api.py` lines 81-114). -/
inductive FetchOutcome where
  | success (d : TempleData)
  | remoteError (e : ErrVal)
  | transportError (msg : String)
  | parseError (msg : String)
deriving DecidableEq

/-- Stats injection of `temple_api.py` lines 91-103: when `data["data"]["items"]`
exists, attach `total_collections_available` (number of ids) and
`total_collections_finished` (number of ids with `count > 0`). -/
def addStats (d : TempleData) : TempleData :=
  match d.items with
  | none => d
  | some its =>
    ⟨some its, some its.length, some ((its.filter (fun p => p.2 > 0)).length)⟩

/-- What one `get_collection_log` call produced: its return value, the cache
directory afterwards, and how many HTTP requests it made. -/
structure LogCallResult where
  result : TempleResult
  files : TempleFiles
  networkCalls : Nat
deriving DecidableEq

/-- Shallow embedding of `TempleApi.get_collection_log(rsn, force_refresh)`
(`temple_api.py` lines 51-114).  A fresh cache hit returns the file contents
with no request; otherwise one request is made: remote error dicts are
forwarded as `{"error": ...}` without caching, transport and parse failures
become locally built string errors without caching, and a success body gets
the stats attached, is written to the cache file, and returned. -/
def get_collection_log (fetch : String → FetchOutcome) (fs : TempleFiles)
    (now : Int) (rsn : String) (force_refresh : Bool) : LogCallResult :=
  let cache_path := get_cache_path "cache" rsn
  if !force_refresh && is_cache_valid fs now cache_path then
    ⟨read_cache fs cache_path, fs, 0⟩
  else
    match fetch (encode_rsn rsn) with
    | FetchOutcome.remoteError e => ⟨TempleResult.err e, fs, 1⟩
    | FetchOutcome.success d =>
      let d2 := addStats d
      ⟨TempleResult.ok d2, filesWrite fs cache_path now (TempleResult.ok d2), 1⟩
    | FetchOutcome.parseError m =>
      ⟨TempleResult.err (ErrVal.text ("Error parsing TempleOSRS API response: " ++ m)), fs, 1⟩
    | FetchOutcome.transportError m =>
      ⟨TempleResult.err (ErrVal.text ("Error connecting to TempleOSRS API: " ++ m)), fs, 1⟩

/-- `TempleApi.get_unowned_items` (`temple_api.py` lines 116-144): on any
`error` result the empty list; otherwise the ids whose `count` equals 0, in
mapping order.  The call result is carried along for observability. -/
def get_unowned_items (fetch : String → FetchOutcome) (fs : TempleFiles)
    (now : Int) (rsn : String) (force_refresh : Bool) : List String × LogCallResult :=
  let r := get_collection_log fetch fs now rsn force_refresh
  match r.result with
  | TempleResult.err _ => ([], r)
  | TempleResult.ok d =>
    match d.items with
    | none => ([], r)
    | some its => ((its.filter (fun p => p.2 = 0)).map (fun p => p.1), r)

/-- How `get_temple_mode_item` in `app.py` (lines 226-244) classifies a
`get_collection_log` result: an error payload that is a dict whose `Code` is
402 gets the dedicated not-synced remediation path; any other error gets the
generic connection-error path. -/
inductive TempleErrorClass where
  | notSynced
  | genericError
  | noError
deriving DecidableEq

/-- The classification test of `app.py` lines 227-228:
`isinstance(error_message, dict) and "Code" in error_message and
error_message.get("Code") == 402`. -/
def classify_temple_error (r : TempleResult) : TempleErrorClass :=
  match r with
  | TempleResult.err (ErrVal.codeMsg c _) =>
    if c = 402 then TempleErrorClass.notSynced else TempleErrorClass.genericError
  | TempleResult.err (ErrVal.text _) => TempleErrorClass.genericError
  | TempleResult.ok _ => TempleErrorClass.noError

/-! ## Identity lookup service: `item_lookup_service.get_item`
(`item_lookup_service.py` lines 42-98)

The module-level `item_cache` dict is an association list from stringified
item id to the cached value: `some details` for a successful lookup, `none`
for the explicit not-found tombstone (`item_cache[item_id] = None`).  The
osrsreboxed database is a parameter `service`; its `failure` outcome models
an `ImportError` or any other exception raised during the lookup (those
paths return `None` without touching the cache). -/

/-- The standardized item object built at lines 78-86 of
`item_lookup_service.py`. -/
structure ItemDetails where
  id : String
  name : String
  examine : String
  icon : String
  members : Bool
  tradeable : Bool
  wiki_url : String
deriving DecidableEq

abbrev IdCache := List (String × Option ItemDetails)

/-- Dict lookup in `item_cache`: `some v` when the key is present with cached
value `v` (`v = none` being the tombstone), `none` when the key is absent. -/
def cacheLookup (c : IdCache) (k : String) : Option (Option ItemDetails) :=
  match c with
  | [] => none
  | p :: t => if p.1 = k then some p.2 else cacheLookup t k

/-- Dict assignment `item_cache[item_id] = v`: replace in place, else append. -/
def dictInsert (c : IdCache) (k : String) (v : Option ItemDetails) : IdCache :=
  match c with
  | [] => [(k, v)]
  | p :: t => if p.1 = k then (k, v) :: t else p :: dictInsert t k v

/-- Outcome of one osrsreboxed database lookup. -/
inductive LookupOutcome where
  | found (d : ItemDetails)
  | notFound
  | failure
deriving DecidableEq

/-- What one `get_item` call produced: its return value, the cache afterwards,
the number of database lookups attempted, and the number of `save_cache`
calls (synchronous persistence to the cache file). -/
structure GetItemResult where
  value : Option ItemDetails
  cache : IdCache
  externalCalls : Nat
  persists : Nat
deriving DecidableEq

/-- Shallow embedding of `get_item(item_id)` (`item_lookup_service.py` lines
42-98).  A cache hit (including a tombstone) returns the cached value with
no lookup.  Otherwise the database is consulted: not-found stores a
tombstone and persists, success stores the details and persists, and a
raised exception returns `None` without caching or persisting. -/
def get_item (service : String → LookupOutcome) (cache : IdCache)
    (item_id : String) : GetItemResult :=
  match cacheLookup cache item_id with
  | some v => ⟨v, cache, 0, 0⟩
  | none =>
    match service item_id with
    | LookupOutcome.notFound => ⟨none, dictInsert cache item_id none, 1, 1⟩
    | LookupOutcome.found d => ⟨some d, dictInsert cache item_id (some d), 1, 1⟩
    | LookupOutcome.failure => ⟨none, cache, 1, 0⟩

/-- Accumulated state of the per-id lookup loop of `preload_unowned_items`
(`app.py` lines 168-198): the values `get_item` returned so far, the identity
cache, and the total number of database lookups. -/
structure BatchState where
  values : List (Option ItemDetails)
  cache : IdCache
  calls : Nat
deriving DecidableEq

/-- One iteration of the loop: call `get_item` on the next unowned id. -/
def lookupStep (service : String → LookupOutcome) (st : BatchState)
    (item_id : String) : BatchState :=
  let r := get_item service st.cache item_id
  ⟨st.values ++ [r.value], r.cache, st.calls + r.externalCalls⟩

/-- The sequence of `get_item(item_id)` calls made while resolving one
unowned-id list, in input order. -/
def runLookups (service : String → LookupOutcome) (cache : IdCache)
    (ids : List String) : BatchState :=
  ids.foldl (lookupStep service) ⟨[], cache, 0⟩

/-! ## Identity resolver: `preload_unowned_items` (`app.py` lines 132-217)

The loop body (lines 168-198) is embedded over an abstract per-id lookup
(`get_item`'s value behaviour) and the local name index.  A falsy
`item_details` (`None`) contributes nothing; a truthy one yields either the
matching local catalog entry or the freshly built looked-up dict. -/

/-- The looked-up item dict built at `app.py` lines 177-187. -/
structure LookedUpItem where
  id : Int
  name : String
  category : String
  subcategory : String
  icon : String
  sources : List Source
deriving DecidableEq

/-- `app.py` lines 177-187: `int(item_id)` on the numeric id string, name and
icon from the lookup, `Unknown` category metadata, and the synthetic
`[{"category": "Temple Mode", "subcategory": "Unowned Item"}]` sources. -/
def mkLookedUpItem (item_id : String) (d : ItemDetails) : LookedUpItem :=
  ⟨(item_id.toInt?).getD 0, d.name, "Unknown", "Unknown", d.icon,
    [⟨"Temple Mode", "Unowned Item"⟩]⟩

/-- One element of `available_items`: a local catalog entry (preferred on a
name match) or the looked-up item. -/
inductive AvailableItem where
  | fromCatalog (e : Entry)
  | fromLookup (li : LookedUpItem)
deriving DecidableEq

/-- `local_items_by_name` (`app.py` lines 156-160): a dict keyed by lowercased
entry name, built left to right (later entries overwrite), skipping entries
whose name is empty. -/
def buildNameIndex (entries : List Entry) : String → Option Entry :=
  entries.foldl
    (fun f e =>
      let n := e.name.toLower
      if n = "" then f else fun k => if k = n then some e else f k)
    (fun _ => none)

/-- One iteration of the loop of `preload_unowned_items` (`app.py` lines
168-198), restricted to how `available_items` is built: look the id up; on a
falsy result do nothing; otherwise append the local catalog entry when the
lowercased looked-up name is in the index, else append the looked-up item. -/
def preloadStep (lookup : String → Option ItemDetails)
    (index : String → Option Entry) (acc : List AvailableItem)
    (item_id : String) : List AvailableItem :=
  match lookup item_id with
  | none => acc
  | some d =>
    match index d.name.toLower with
    | some e => acc ++ [AvailableItem.fromCatalog e]
    | none => acc ++ [AvailableItem.fromLookup (mkLookedUpItem item_id d)]

/-- The `available_items` list built by the loop of `preload_unowned_items`
over the unowned ids, in input order. -/
def preload_unowned_items (lookup : String → Option ItemDetails)
    (index : String → Option Entry) (ids : List String) : List AvailableItem :=
  ids.foldl (preloadStep lookup index) []

/-- What a single unowned id contributes to `available_items`. -/
def resolveOne (lookup : String → Option ItemDetails)
    (index : String → Option Entry) (item_id : String) : Option AvailableItem :=
  match lookup item_id with
  | none => none
  | some d =>
    match index d.name.toLower with
    | some e => some (AvailableItem.fromCatalog e)
    | none => some (AvailableItem.fromLookup (mkLookedUpItem item_id d))

/-! ## Catalog builder, cell scanner
(`collection_log_randomizer.py` lines 74-120)

A table cell is its list of links carrying both an `href` and a `title`
attribute (`td.find_all('a', href=True, title=True)`) plus the `src` of its
first `img` tag when present.  `hasDirectImg` is `link.find('img',
recursive=False)` being truthy. -/

structure Link where
  href : String
  title : String
  hasDirectImg : Bool
deriving DecidableEq

structure Cell where
  links : List Link
  img : Option String
deriving DecidableEq

/-- The `continue` filter at line 90: keep a link iff its href starts with
`/w/`, its title has no `:` (namespace qualifier), and its href does not
start with `/w/File:`. -/
def passesFilter (l : Link) : Bool :=
  l.href.startsWith "/w/" && !(l.title.contains ':') && !(l.href.startsWith "/w/File:")

/-- A link the loop at lines 85-95 actually assigns to `main_link`: it passes
the filter and has no `img` as a direct child. -/
def acceptsMain (l : Link) : Bool := passesFilter l && !l.hasDirectImg

/-- One iteration of the `main_link` loop: filtered-out links are skipped,
an accepted link overwrites the previous candidate. -/
def mainLinkStep (acc : Option Link) (l : Link) : Option Link :=
  if passesFilter l then
    if !l.hasDirectImg then some l else acc
  else acc

/-- The `main_link` computed at lines 83-95: the last accepted link, if any. -/
def findMainLink (links : List Link) : Option Link :=
  links.foldl mainLinkStep none

def wikiBase : String := "https://oldschool.runescape.wiki"

/-- The icon resolved at lines 103-107: the cell's first `img` src made
absolute, empty when absent. -/
def cellIcon (c : Cell) : String :=
  match c.img with
  | some src => wikiBase ++ src
  | none => ""

/-- Processing of one `td` (lines 74-120): skip a cell with no qualifying
links; otherwise emit one occurrence from `main_link` when one was found,
none when every link was filtered out or wrapped an image. -/
def scanCell (category subcategory : String) (c : Cell) : Option Item :=
  match c.links with
  | [] => none
  | _ :: _ =>
    match findMainLink c.links with
    | none => none
    | some l =>
      some ⟨l.title, wikiBase ++ l.href, cellIcon c, category, subcategory⟩

/-! ## Catalog builder, deduplication
(`collection_log_randomizer.py` lines 125-137)

`unique_items` is a dict keyed by item name; Python dicts preserve insertion
order, so it is embedded as a list of entries in first-seen order.  For each
raw occurrence: a new name creates an entry copying the occurrence's fields
with an empty `sources` list, and every occurrence (including the first)
appends its `{category, subcategory}` pair to its entry's `sources`. -/

/-- The source tuple appended at lines 134-137. -/
def toSource (it : Item) : Source := ⟨it.category, it.subcategory⟩

/-- The `sources` list the claim describes for a name: the category pair of
every occurrence of that name, in occurrence order, duplicates kept. -/
def sourcesFor (n : String) (l : List Item) : List Source :=
  (l.filter (fun it => it.name = n)).map toSource

/-- Appending the occurrence's source tuple to the entry of the same name. -/
def updOcc (it : Item) (e : Entry) : Entry :=
  if e.name = it.name then
    ⟨e.name, e.url, e.icon, e.category, e.subcategory, e.sources ++ [toSource it]⟩
  else e

/-- `unique_items[name] = item.copy(); unique_items[name]["sources"] = []`
followed by the unconditional append: a fresh entry carries exactly its own
occurrence's source tuple. -/
def freshEntry (it : Item) : Entry :=
  ⟨it.name, it.url, it.icon, it.category, it.subcategory, [toSource it]⟩

/-- One iteration of the dedup loop (lines 127-137). -/
def addOccurrence (acc : List Entry) (it : Item) : List Entry :=
  if acc.any (fun e => e.name = it.name) then acc.map (updOcc it)
  else acc ++ [freshEntry it]

/-- `list(unique_items.values())`: the deduplicated registry built by folding
the dedup loop over `all_items`. -/
def dedupEntries (items : List Item) : List Entry :=
  items.foldl addOccurrence []

/-- Invariant of the dedup loop after consuming the occurrences `processed`:
entry names are distinct, each entry's sources are exactly the source pairs
of its name's occurrences in order, every processed name has an entry, and
the source tuples total the number of processed occurrences. -/
def DedupInv (processed : List Item) (acc : List Entry) : Prop :=
  (acc.map (fun e => e.name)).Nodup ∧
  (∀ e ∈ acc, e.sources = sourcesFor e.name processed) ∧
  (∀ it ∈ processed, it.name ∈ acc.map (fun e => e.name)) ∧
  ((acc.map (fun e => e.sources.length)).sum = processed.length)

/-! ## Theorems -/

/-- C1 (counterexample): invoking the selector on an empty pool, in either
mode, returns the normal value `None` — a non-error return, not an EmptyPool
error signal and not an index error. -/
theorem pick_empty_pool_counterexample :
    get_random_collection_log_item emptyCacheData true 0 = PickOutcome.value none ∧
    get_random_collection_log_item emptyCacheData false 0 = PickOutcome.value none := by
  decide

/-- C1 (amended): for every selection mode, if the mode's pool is empty the
selector returns the sentinel `None` (it never reaches `random.choice`, so
no index error is raised, and no EmptyPool error is signalled). -/
theorem pick_empty_pool_returns_none (data : CacheData) (k : Nat) :
    (data.items = [] →
      get_random_collection_log_item data true k = PickOutcome.value none) ∧
    (data.unique_items = [] →
      get_random_collection_log_item data false k = PickOutcome.value none) := by
  constructor
  · intro h
    simp [get_random_collection_log_item, h]
  · intro h
    simp [get_random_collection_log_item, h]

/-- C1 (witness): the amended theorem applied to the empty snapshot. -/
theorem pick_empty_pool_returns_none_witness :
    emptyCacheData.items = [] ∧ emptyCacheData.unique_items = [] ∧
    get_random_collection_log_item emptyCacheData true 5 = PickOutcome.value none ∧
    get_random_collection_log_item emptyCacheData false 5 = PickOutcome.value none :=
  ⟨rfl, rfl, (pick_empty_pool_returns_none emptyCacheData 5).1 rfl,
    (pick_empty_pool_returns_none emptyCacheData 5).2 rfl⟩

/-- C2 (counterexample): with the cache file present, two consecutive
`scrape_collection_log()` calls return byte-for-byte equal data but
distinct freshly parsed objects — callers do not receive the same in-memory
snapshot instance, so there is no load-once memoization. -/
theorem scrape_not_memoized_counterexample :
    scrapeCall1.data = scrapeCall2.data ∧ scrapeCall1.allocId ≠ scrapeCall2.allocId := by
  decide

/-- C2 (amended): when the cache file exists, two consecutive calls both
return exactly the persisted snapshot (byte-for-byte identical entries) and
neither fetches the source document; but each call re-reads and re-parses
the cache file and returns a fresh object, so the two calls do not hand out
the same in-memory instance. -/
theorem scrape_cached_idempotent_not_memoized (buildDoc : Unit → CacheData)
    (d : CacheData) (alloc : Nat) :
    (scrape_collection_log buildDoc (some d) alloc).data = d ∧
    (scrape_collection_log buildDoc
        (scrape_collection_log buildDoc (some d) alloc).cacheFile
        (scrape_collection_log buildDoc (some d) alloc).nextAlloc).data = d ∧
    ScrapeEvent.fetchDoc ∉ (scrape_collection_log buildDoc (some d) alloc).events ∧
    ScrapeEvent.fetchDoc ∉ (scrape_collection_log buildDoc
        (scrape_collection_log buildDoc (some d) alloc).cacheFile
        (scrape_collection_log buildDoc (some d) alloc).nextAlloc).events ∧
    (scrape_collection_log buildDoc (some d) alloc).allocId ≠
      (scrape_collection_log buildDoc
        (scrape_collection_log buildDoc (some d) alloc).cacheFile
        (scrape_collection_log buildDoc (some d) alloc).nextAlloc).allocId := by
  refine ⟨rfl, rfl, ?_, ?_, ?_⟩
  · simp [scrape_collection_log]
  · simp [scrape_collection_log]
  · simp only [scrape_collection_log]
    omega

/-- C4: a remote error payload with nested `Code` 402 is surfaced on the
dedicated not-synced path, while a transport failure for the same player is
surfaced on the generic error path, and the two classifications are
distinct. -/
theorem not_synced_distinct_from_generic :
    classify_temple_error (get_collection_log
        (fun _ => FetchOutcome.remoteError (ErrVal.codeMsg 402 "not synced"))
        [] 0 "Iron Beeto" false).result = TempleErrorClass.notSynced ∧
    classify_temple_error (get_collection_log
        (fun _ => FetchOutcome.transportError "connection refused")
        [] 0 "Iron Beeto" false).result = TempleErrorClass.genericError ∧
    TempleErrorClass.notSynced ≠ TempleErrorClass.genericError := by
  decide

/-- The success body used in the C9 collision scenario. -/
def snapshotAB : TempleData := ⟨some [("1001", 2)], none, none⟩

/-- C9: the filename sanitization is not injective: the distinct players
`a b` and `a.b` share one cache path, and a fresh snapshot fetched and
cached for `a b` is returned unchanged (with no network call) when
`a.b`'s collection log is requested, even though the remote service is
down for the second call. -/
theorem player_cache_path_collision :
    (("a b" : String) ≠ "a.b") ∧
    get_cache_path "cache" "a b" = get_cache_path "cache" "a.b" ∧
    (get_collection_log (fun _ => FetchOutcome.transportError "service down")
        (get_collection_log (fun _ => FetchOutcome.success snapshotAB)
          [] 0 "a b" false).files
        0 "a.b" false).result
      = TempleResult.ok ⟨some [("1001", 2)], some 1, some 1⟩ ∧
    (get_collection_log (fun _ => FetchOutcome.transportError "service down")
        (get_collection_log (fun _ => FetchOutcome.success snapshotAB)
          [] 0 "a b" false).files
        0 "a.b" false).networkCalls = 0 := by
  decide

/-- A progress body in which every item is owned (`count > 0`). -/
def fullOwnerBody : TempleData := ⟨some [("1001", 3), ("1002", 1)], none, none⟩

/-- C10: whenever the underlying progress fetch errors — transport failure,
JSON parse failure, or a remote error object — `get_unowned_items` returns
the empty list (it is a total function, so nothing is raised and no error
marker is returned), which is exactly what it also returns for a player who
owns every item: the two situations are indistinguishable at this
interface. -/
theorem unowned_error_indistinguishable (m : String) (e : ErrVal)
    (rsn : String) (now : Int) :
    (get_unowned_items (fun _ => FetchOutcome.transportError m) [] now rsn false).1 = [] ∧
    (get_unowned_items (fun _ => FetchOutcome.parseError m) [] now rsn false).1 = [] ∧
    (get_unowned_items (fun _ => FetchOutcome.remoteError e) [] now rsn false).1 = [] ∧
    (get_unowned_items (fun _ => FetchOutcome.success fullOwnerBody) [] now rsn false).1 = [] := by
  refine ⟨?_, ?_, ?_, ?_⟩ <;>
    simp [get_unowned_items, get_collection_log, is_cache_valid, filesLookup,
      addStats, fullOwnerBody, List.filter]

/-- C8: with a cache file for the player whose age is strictly below the
24-hour TTL and `force_refresh` false, `get_collection_log` returns the
cached snapshot, leaves the cache directory untouched, and makes no network
call; in every other configuration (stale or missing cache, or a forced
refresh) it performs exactly one fetch from the remote service. -/
theorem progress_cache_fresh_hit (fetch : String → FetchOutcome)
    (fs : TempleFiles) (now : Int) (rsn : String) (f : TempleCacheFile)
    (hfind : filesLookup fs (get_cache_path "cache" rsn) = some f)
    (hfresh : now - f.mtime < CACHE_TTL) :
    get_collection_log fetch fs now rsn false = ⟨f.contents, fs, 0⟩ ∧
    (∀ (fs2 : TempleFiles) (now2 : Int) (force : Bool),
        (!force && is_cache_valid fs2 now2 (get_cache_path "cache" rsn)) = false →
        (get_collection_log fetch fs2 now2 rsn force).networkCalls = 1) := by
  constructor
  · have hv : is_cache_valid fs now (get_cache_path "cache" rsn) = true := by
      simp only [is_cache_valid, hfind]
      exact decide_eq_true hfresh
    simp [get_collection_log, hv, read_cache, hfind]
  · intro fs2 now2 force h
    simp only [get_collection_log, h, Bool.false_eq_true, if_false]
    cases fetch (encode_rsn rsn) <;> simp

/-- Cache directory for the C8 witness: one fresh file for player `bob`. -/
def witnessFilesBob : TempleFiles :=
  [⟨get_cache_path "cache" "bob", 0, TempleResult.ok ⟨none, none, none⟩⟩]

/-- C8 (witness): the fresh-hit theorem applied to player `bob` with a
cache file written at time 0 and read at time 100. -/
theorem progress_cache_fresh_hit_witness :
    filesLookup witnessFilesBob (get_cache_path "cache" "bob")
      = some ⟨get_cache_path "cache" "bob", 0, TempleResult.ok ⟨none, none, none⟩⟩ ∧
    ((100 : Int) - (0 : Int) < CACHE_TTL) ∧
    get_collection_log (fun _ => FetchOutcome.transportError "x")
        witnessFilesBob 100 "bob" false
      = ⟨TempleResult.ok ⟨none, none, none⟩, witnessFilesBob, 0⟩ :=
  ⟨by decide, by decide,
    (progress_cache_fresh_hit (fun _ => FetchOutcome.transportError "x")
      witnessFilesBob 100 "bob"
      ⟨get_cache_path "cache" "bob", 0, TempleResult.ok ⟨none, none, none⟩⟩
      (by decide) (by decide)).1⟩

/-- One loop iteration keeps the accumulator unless the link is accepted, in
which case the link overwrites it. -/
lemma mainLinkStep_eq (acc : Option Link) (l : Link) :
    mainLinkStep acc l = if acceptsMain l then some l else acc := by
  cases h1 : passesFilter l <;> cases h2 : l.hasDirectImg <;>
    simp [mainLinkStep, acceptsMain, h1, h2]

/-- The `main_link` loop computes the last accepted link, falling back to the
initial accumulator when no link is accepted. -/
lemma foldl_mainLink (links : List Link) : ∀ acc : Option Link,
    links.foldl mainLinkStep acc
      = ((links.filter acceptsMain).getLast?).elim acc some := by
  induction links with
  | nil => intro acc; simp
  | cons x xs ih =>
    intro acc
    rw [List.foldl_cons, mainLinkStep_eq, List.filter_cons]
    cases hx : acceptsMain x
    · simp only [Bool.false_eq_true, if_false]
      exact ih acc
    · simp only [if_true]
      rw [ih (some x)]
      cases hxs : xs.filter acceptsMain with
      | nil => simp
      | cons y ys =>
        rw [List.getLast?_cons_cons]
        have h1 : (y :: ys).getLast?.isSome := by
          rw [List.getLast?_isSome]
          simp
        obtain ⟨z, hz⟩ := Option.isSome_iff_exists.mp h1
        rw [hz]
        rfl

/-- `main_link` is the last link of the cell passing the acceptance test. -/
lemma findMainLink_eq (links : List Link) :
    findMainLink links = (links.filter acceptsMain).getLast? := by
  rw [findMainLink, foldl_mainLink]
  cases (links.filter acceptsMain).getLast? <;> rfl

/-- C5: a table cell yields at most one occurrence (the result is an
`Option`), built from the last link that points to an internal non-file
content page, has no namespace qualifier in its title, and does not wrap an
image as a direct child; a cell in which no link passes that test — in
particular a cell with no links at all — yields no occurrence. -/
theorem cell_main_link_last_accepted (category subcategory : String) (c : Cell) :
    scanCell category subcategory c
      = ((c.links.filter acceptsMain).getLast?).elim none
          (fun l => some ⟨l.title, wikiBase ++ l.href, cellIcon c, category, subcategory⟩) := by
  cases hl : c.links with
  | nil => simp [scanCell, hl]
  | cons x xs =>
    simp only [scanCell, hl, findMainLink_eq]
    cases ((x :: xs).filter acceptsMain).getLast? <;> rfl

/-- Each loop iteration appends exactly what the id resolves to. -/
lemma preloadStep_eq (lookup : String → Option ItemDetails)
    (index : String → Option Entry) (acc : List AvailableItem) (item_id : String) :
    preloadStep lookup index acc item_id
      = acc ++ (resolveOne lookup index item_id).toList := by
  unfold preloadStep resolveOne
  cases hl : lookup item_id with
  | none => simp
  | some d => cases hi : index d.name.toLower <;> simp [hi]

/-- The resolver loop, from any accumulator, appends the per-id resolutions
in input order, dropping only the ids whose lookup failed. -/
lemma preload_foldl_eq (lookup : String → Option ItemDetails)
    (index : String → Option Entry) (ids : List String) :
    ∀ acc : List AvailableItem,
      ids.foldl (preloadStep lookup index) acc
        = acc ++ ids.filterMap (resolveOne lookup index) := by
  induction ids with
  | nil => intro acc; simp
  | cons a t ih =>
    intro acc
    rw [List.foldl_cons, ih, preloadStep_eq]
    cases h : resolveOne lookup index a <;>
      simp [List.filterMap_cons, h]

/-- C6: resolving the unowned ids against the catalog's case-insensitive name
index produces, in input-id order, exactly: the local catalog entry when the
successful lookup's lowercased name is in the index, the looked-up item
(with sources `[{Temple Mode, Unowned Item}]`, by `mkLookedUpItem`) when it
is not, and nothing for an id whose lookup failed — with no batch-level
error (the function is total). -/
theorem preload_resolution_and_order (lookup : String → Option ItemDetails)
    (entries : List Entry) (ids : List String) :
    preload_unowned_items lookup (buildNameIndex entries) ids
      = ids.filterMap (resolveOne lookup (buildNameIndex entries)) := by
  rw [preload_unowned_items, preload_foldl_eq]
  exact List.nil_append _

/-- A cache hit (value or tombstone) returns the cached value with no
database lookup, no cache change, and no persistence. -/
lemma get_item_hit (service : String → LookupOutcome) (cache : IdCache)
    (item_id : String) (v : Option ItemDetails)
    (h : cacheLookup cache item_id = some v) :
    get_item service cache item_id = ⟨v, cache, 0, 0⟩ := by
  simp [get_item, h]

/-- Looking up a key immediately after assigning it yields the assigned
value. -/
lemma cacheLookup_dictInsert_self (c : IdCache) (k : String)
    (v : Option ItemDetails) :
    cacheLookup (dictInsert c k v) k = some v := by
  induction c with
  | nil => simp [dictInsert, cacheLookup]
  | cons p t ih =>
    by_cases hp : p.1 = k
    · simp [dictInsert, cacheLookup, hp]
    · simp [dictInsert, cacheLookup, hp, ih]

/-- Running the lookup loop over ids that are all already cached returns the
cached values in order, leaves the cache unchanged, and adds no database
lookups. -/
lemma runLookups_warm_aux (service : String → LookupOutcome) (ids : List String) :
    ∀ (vs : List (Option ItemDetails)) (c : IdCache) (n : Nat),
      (∀ id ∈ ids, (cacheLookup c id).isSome) →
      ids.foldl (lookupStep service) ⟨vs, c, n⟩
        = ⟨vs ++ ids.map (fun id => (cacheLookup c id).getD none), c, n⟩ := by
  induction ids with
  | nil => intro vs c n _; simp
  | cons a t ih =>
    intro vs c n h
    have ha := h a (List.mem_cons_self a t)
    obtain ⟨v, hv⟩ := Option.isSome_iff_exists.mp ha
    rw [List.foldl_cons]
    have hstep : lookupStep service ⟨vs, c, n⟩ a = ⟨vs ++ [v], c, n⟩ := by
      simp [lookupStep, get_item_hit service c a v hv]
    rw [hstep, ih (vs ++ [v]) c n (fun id hid => h id (List.mem_cons_of_mem a hid))]
    simp [hv]

/-- C7: with every id of the batch already in the identity cache (values or
tombstones), running the lookup loop twice yields the same value list in the
same order with zero database lookups on either run; and any fresh lookup
whose outcome is a success or a not-found tombstone is stored in the cache
under its id and persisted by exactly one synchronous `save_cache` call
before `get_item` returns, hence before the next id is processed. -/
theorem identity_cache_warm_and_persist (service : String → LookupOutcome)
    (cache c : IdCache) (ids : List String) (item_id : String)
    (hwarm : ∀ id ∈ ids, (cacheLookup cache id).isSome)
    (hmiss : cacheLookup c item_id = none)
    (hsvc : service item_id ≠ LookupOutcome.failure) :
    (runLookups service (runLookups service cache ids).cache ids).values
        = (runLookups service cache ids).values ∧
    (runLookups service cache ids).calls = 0 ∧
    (runLookups service (runLookups service cache ids).cache ids).calls = 0 ∧
    cacheLookup (get_item service c item_id).cache item_id
        = some (get_item service c item_id).value ∧
    (get_item service c item_id).persists = 1 := by
  have h1 : runLookups service cache ids
      = ⟨ids.map (fun id => (cacheLookup cache id).getD none), cache, 0⟩ := by
    rw [runLookups, runLookups_warm_aux service ids [] cache 0 hwarm]
    simp
  have h2 : (runLookups service cache ids).cache = cache := by rw [h1]
  refine ⟨?_, ?_, ?_, ?_, ?_⟩
  · rw [h2]
  · rw [h1]
  · rw [h2, h1]
  · simp only [get_item, hmiss]
    cases hs : service item_id with
    | found d => simp [cacheLookup_dictInsert_self]
    | notFound => simp [cacheLookup_dictInsert_self]
    | failure => exact absurd hs hsvc
  · simp only [get_item, hmiss]
    cases hs : service item_id with
    | found d => rfl
    | notFound => rfl
    | failure => exact absurd hs hsvc

/-- Identity cache for the C7 witness: id 7 cached as a tombstone. -/
def witnessIdCache : IdCache := [("7", none)]

/-- External database for the C7 witness: everything resolves to not-found. -/
def witnessService : String → LookupOutcome := fun _ => LookupOutcome.notFound

/-- C7 (witness): the warm-cache theorem applied to the one-id batch `7`
with its tombstone cached, and a fresh miss on id `9`. -/
theorem identity_cache_warm_and_persist_witness :
    (∀ id ∈ (["7"] : List String), (cacheLookup witnessIdCache id).isSome) ∧
    cacheLookup ([] : IdCache) "9" = none ∧
    witnessService "9" ≠ LookupOutcome.failure ∧
    (runLookups witnessService
        (runLookups witnessService witnessIdCache ["7"]).cache ["7"]).values
      = (runLookups witnessService witnessIdCache ["7"]).values :=
  ⟨by decide, by decide, by decide,
    (identity_cache_warm_and_persist witnessService witnessIdCache [] ["7"] "9"
      (by decide) (by decide) (by decide)).1⟩

/-- Appending a source tuple never changes an entry's name. -/
lemma updOcc_name (it : Item) (e : Entry) : (updOcc it e).name = e.name := by
  unfold updOcc
  split <;> rfl

/-- The update pass over the registry preserves the name list. -/
lemma map_updOcc_names (acc : List Entry) (it : Item) :
    (acc.map (updOcc it)).map (fun e => e.name) = acc.map (fun e => e.name) := by
  induction acc with
  | nil => rfl
  | cons e t ih =>
    simp only [List.map_cons, updOcc_name, ih]

/-- The membership test of the dedup loop agrees with name-list membership. -/
lemma any_name_iff (acc : List Entry) (n : String) :
    acc.any (fun e => e.name = n) = true ↔ n ∈ acc.map (fun e => e.name) := by
  simp only [List.any_eq_true, decide_eq_true_eq, List.mem_map]

/-- Mapping a function that fixes every element of a list is the identity. -/
lemma map_eq_self_of {α : Type} (l : List α) (f : α → α)
    (h : ∀ x ∈ l, f x = x) : l.map f = l := by
  induction l with
  | nil => rfl
  | cons a t ih =>
    rw [List.map_cons, h a (List.mem_cons_self a t),
      ih (fun x hx => h x (List.mem_cons_of_mem a hx))]

/-- When names are distinct and the occurrence's name is present, the update
pass adds exactly one source tuple to the registry's total. -/
lemma sum_map_updOcc (acc : List Entry) (it : Item)
    (hnd : (acc.map (fun e => e.name)).Nodup)
    (hmem : it.name ∈ acc.map (fun e => e.name)) :
    ((acc.map (updOcc it)).map (fun e => e.sources.length)).sum
      = (acc.map (fun e => e.sources.length)).sum + 1 := by
  induction acc with
  | nil => simp at hmem
  | cons e t ih =>
    simp only [List.map_cons, List.nodup_cons] at hnd
    obtain ⟨hen, hnt⟩ := hnd
    simp only [List.map_cons, List.mem_cons] at hmem
    rcases hmem with h1 | h2
    · have hupd : updOcc it e
          = ⟨e.name, e.url, e.icon, e.category, e.subcategory,
              e.sources ++ [toSource it]⟩ := by
        unfold updOcc
        rw [if_pos h1.symm]
      have ht : t.map (updOcc it) = t := by
        apply map_eq_self_of
        intro x hx
        unfold updOcc
        rw [if_neg]
        intro hxe
        exact hen (h1 ▸ hxe ▸ List.mem_map_of_mem (fun e => e.name) hx)
      simp only [List.map_cons, hupd, ht, List.sum_cons, List.length_append,
        List.length_singleton]
      omega
    · have hne : e.name ≠ it.name := fun hh => hen (hh ▸ h2)
      have hupd : updOcc it e = e := by
        unfold updOcc
        rw [if_neg hne]
      simp only [List.map_cons, hupd, List.sum_cons, ih hnt h2]
      omega

/-- Appending one occurrence extends a name's source list exactly when the
names match. -/
lemma sourcesFor_append_item (n : String) (p : List Item) (it : Item) :
    sourcesFor n (p ++ [it])
      = sourcesFor n p ++ (if it.name = n then [toSource it] else []) := by
  unfold sourcesFor
  rw [List.filter_append, List.map_append]
  by_cases h : it.name = n
  · simp [List.filter, h]
  · simp [List.filter, h]

/-- A name with no occurrences has an empty source list. -/
lemma sourcesFor_eq_nil (n : String) (p : List Item)
    (h : ∀ x ∈ p, x.name ≠ n) : sourcesFor n p = [] := by
  unfold sourcesFor
  have hf : p.filter (fun it => it.name = n) = [] := by
    induction p with
    | nil => rfl
    | cons a t ih =>
      rw [List.filter_cons, if_neg]
      · exact ih (fun x hx => h x (List.mem_cons_of_mem a hx))
      · simp only [decide_eq_true_eq]
        exact h a (List.mem_cons_self a t)
  rw [hf]
  rfl

/-- One dedup-loop iteration preserves the invariant. -/
lemma dedupInv_step (p : List Item) (acc : List Entry) (it : Item)
    (h : DedupInv p acc) : DedupInv (p ++ [it]) (addOccurrence acc it) := by
  obtain ⟨hnd, hsrc, hcov, hsum⟩ := h
  by_cases hmem : it.name ∈ acc.map (fun e => e.name)
  · have hany : acc.any (fun e => e.name = it.name) = true :=
      (any_name_iff acc it.name).mpr hmem
    unfold addOccurrence
    rw [if_pos hany]
    refine ⟨?_, ?_, ?_, ?_⟩
    · rw [map_updOcc_names]
      exact hnd
    · intro e' he'
      obtain ⟨e, he, rfl⟩ := List.mem_map.mp he'
      by_cases hne : e.name = it.name
      · have hu : updOcc it e
            = ⟨e.name, e.url, e.icon, e.category, e.subcategory,
                e.sources ++ [toSource it]⟩ := by
          unfold updOcc
          rw [if_pos hne]
        rw [hu, sourcesFor_append_item]
        have hname : (⟨e.name, e.url, e.icon, e.category, e.subcategory,
            e.sources ++ [toSource it]⟩ : Entry).name = e.name := rfl
        rw [hname] at *
        rw [hsrc e he, if_pos hne.symm]
      · have hu : updOcc it e = e := by
          unfold updOcc
          rw [if_neg hne]
        rw [hu, sourcesFor_append_item, hsrc e he,
          if_neg (fun hh => hne hh.symm), List.append_nil]
    · intro x hx
      rw [map_updOcc_names]
      rcases List.mem_append.mp hx with hx1 | hx2
      · exact hcov x hx1
      · have hxit : x = it := by simpa using hx2
        rw [hxit]
        exact hmem
    · rw [sum_map_updOcc acc it hnd hmem, hsum, List.length_append,
        List.length_singleton]
  · have hany : ¬ (acc.any (fun e => e.name = it.name) = true) :=
      fun hc => hmem ((any_name_iff acc it.name).mp hc)
    unfold addOccurrence
    rw [if_neg hany]
    have hfn : (freshEntry it).name = it.name := rfl
    refine ⟨?_, ?_, ?_, ?_⟩
    · rw [List.map_append, List.map_cons, List.map_nil, hfn, List.nodup_append]
      refine ⟨hnd, List.nodup_singleton _, ?_⟩
      intro a ha hb
      have : a = it.name := by simpa using hb
      exact hmem (this ▸ ha)
    · intro e' he'
      rcases List.mem_append.mp he' with he1 | he2
      · have hne : e'.name ≠ it.name := by
          intro hh
          exact hmem (hh ▸ List.mem_map_of_mem (fun e => e.name) he1)
        rw [sourcesFor_append_item, hsrc e' he1,
          if_neg (fun hh => hne hh.symm), List.append_nil]
      · have he'f : e' = freshEntry it := by simpa using he2
        rw [he'f, hfn, sourcesFor_append_item, if_pos rfl,
          sourcesFor_eq_nil it.name p ?hnone, List.nil_append]
        · rfl
        case hnone =>
          intro x hx hxn
          exact hmem (hxn ▸ hcov x hx)
    · intro x hx
      rw [List.map_append, List.map_cons, List.map_nil, hfn]
      rcases List.mem_append.mp hx with hx1 | hx2
      · exact List.mem_append_left _ (hcov x hx1)
      · have hxit : x = it := by simpa using hx2
        exact List.mem_append_right _ (by simp [hxit])
    · rw [List.map_append, List.map_cons, List.map_nil, List.sum_append,
        List.length_append, List.length_singleton, hsum]
      rfl

/-- Folding the dedup loop over further occurrences preserves the
invariant. -/
lemma dedupInv_foldl (rest : List Item) : ∀ (p : List Item) (acc : List Entry),
    DedupInv p acc → DedupInv (p ++ rest) (rest.foldl addOccurrence acc) := by
  induction rest with
  | nil =>
    intro p acc h
    simpa using h
  | cons a t ih =>
    intro p acc h
    have h3 := ih (p ++ [a]) (addOccurrence acc a) (dedupInv_step p acc a h)
    rw [List.foldl_cons]
    simpa [List.append_assoc] using h3

/-- The invariant holds before any occurrence is processed. -/
lemma dedupInv_base : DedupInv [] [] := by
  refine ⟨List.nodup_nil, ?_, ?_, rfl⟩ <;> intro x hx <;> simp at hx

/-- C3: in every built registry the entry names are pairwise distinct, the
source tuples across all entries total exactly the accepted occurrences,
and each entry's `sources` lists the category/subcategory pair of every
occurrence of its name, in first-seen order, duplicates included. -/
theorem dedup_registry_invariants (l : List Item) :
    ((dedupEntries l).map (fun e => e.name)).Nodup ∧
    ((dedupEntries l).map (fun e => e.sources.length)).sum = l.length ∧
    (∀ e ∈ dedupEntries l, e.sources = sourcesFor e.name l) := by
  have h := dedupInv_foldl l [] [] dedupInv_base
  rw [List.nil_append] at h
  obtain ⟨h1, h2, h3, h4⟩ := h
  exact ⟨h1, h4, h2⟩
